import Mathlib

/-!
Verification of the applicant-screening core (resumer repository).

The definitions below are a shallow embedding of the TypeScript source:
  * `frontend/lib/pdf-utils.ts` — `validatePDF` (PDF header sniff over a
    UTF-8 decode of the first five bytes, as `buffer.toString('utf8', 0, 5)`);
  * the in-memory store (`InMemoryStore`): a JS `Map` modelled as an
    insertion-ordered association list plus an auto-increment counter;
  * `frontend/app/api/applicants/upload/route.ts` — the `POST` upload handler
    and `screenApplicant` (oracle call with success-path defaults and a
    deterministic failure fallback);
  * the analytics routes — `GET` summary, `GET` top candidates, `DELETE`.

JavaScript numbers are modelled as exact rationals (`ℚ`); the truthiness
of `x || d` is modelled per type (`0`, `''`, `null`/absent are falsy).
The scoring oracle and the JSON parser are opaque parameters.
-/

/-! ## Data model (`types/index.ts`) -/

inductive DocType where
  | resume
  | cover_letter
  | transcript
  | combined
deriving DecidableEq, Repr

structure Document where
  id : Nat
  document_type : DocType
  file_path : String
  original_filename : String
  extracted_text : Option String
  file_size_bytes : Option Nat
  uploaded_at : String
deriving DecidableEq, Repr

structure ScreeningResult where
  id : Nat
  applicant_id : Nat
  overall_score : ℚ
  resume_score : Option ℚ
  cover_letter_score : Option ℚ
  transcript_score : Option ℚ
  strengths : String
  weaknesses : String
  reasoning : String
  recommended_for_interview : Bool
  confidence_level : String
  rank : Option ℚ
  percentile : Option ℚ
  screened_at : String
  ai_model_used : String
deriving DecidableEq, Repr

structure Applicant where
  id : Nat
  name : Option String
  email : Option String
  phone : Option String
  source : String
  position_applied : Option String
  created_at : String
  updated_at : String
  documents : List Document
  screening_result : Option ScreeningResult
deriving DecidableEq, Repr

/-! ## JavaScript truthiness helpers (`x || d` per value type) -/

/-- `x || d` for a JS number that may be absent: `0` and absent are falsy. -/
def jsNumOr (v : Option ℚ) (d : ℚ) : ℚ :=
  match v with
  | some x => if x = 0 then d else x
  | none => d

/-- `x || null` for a JS number: `0` and absent collapse to `null`. -/
def jsNumOrNull (v : Option ℚ) : Option ℚ :=
  match v with
  | some x => if x = 0 then none else some x
  | none => none

/-- `x || d` for a JS string that may be absent: `''` and absent are falsy. -/
def jsStrOr (v : Option String) (d : String) : String :=
  match v with
  | some x => if x = "" then d else x
  | none => d

/-- `x || null` for a JS string: `''` and absent collapse to `null`. -/
def jsStrOrNull (v : Option String) : Option String :=
  match v with
  | some x => if x = "" then none else some x
  | none => none

/-! ## PDF validation (`lib/pdf-utils.ts`)

`validatePDF` compares `buffer.toString('utf8', 0, 5)` with the string
`'%PDF-'`.  We model Node's UTF-8 decoding of a byte slice (WHATWG
decoding with U+FFFD replacement, resynchronising at the offending byte)
and compare the resulting code points with those of `'%PDF-'`. -/

/-- Is the byte a UTF-8 continuation byte (`0x80`–`0xBF`)? -/
def contByte (b : Nat) : Bool :=
  decide (128 ≤ b) && decide (b ≤ 191)

/-- WHATWG UTF-8 decode with replacement (code point `0xFFFD = 65533`),
fuelled so the recursion is structural; each step consumes at least one
byte, so fuel equal to the input length suffices. -/
def utf8DecodeAux : Nat → List Nat → List Nat
  | _, [] => []
  | 0, _ :: _ => []
  | fuel + 1, b :: rest =>
    if b < 128 then
      b :: utf8DecodeAux fuel rest
    else if decide (194 ≤ b) && decide (b ≤ 223) then
      match rest with
      | [] => [65533]
      | b2 :: rest2 =>
        if contByte b2 then
          ((b - 192) * 64 + (b2 - 128)) :: utf8DecodeAux fuel rest2
        else
          65533 :: utf8DecodeAux fuel (b2 :: rest2)
    else if decide (224 ≤ b) && decide (b ≤ 239) then
      match rest with
      | [] => [65533]
      | [b2] =>
        if contByte b2 && (decide (b ≠ 224) || decide (160 ≤ b2)) &&
            (decide (b ≠ 237) || decide (b2 ≤ 159)) then
          [65533]
        else
          65533 :: utf8DecodeAux fuel [b2]
      | b2 :: b3 :: rest3 =>
        if contByte b2 && (decide (b ≠ 224) || decide (160 ≤ b2)) &&
            (decide (b ≠ 237) || decide (b2 ≤ 159)) then
          if contByte b3 then
            ((b - 224) * 4096 + (b2 - 128) * 64 + (b3 - 128)) ::
              utf8DecodeAux fuel rest3
          else
            65533 :: utf8DecodeAux fuel (b2 :: b3 :: rest3)
        else
          65533 :: utf8DecodeAux fuel (b2 :: b3 :: rest3)
    else if decide (240 ≤ b) && decide (b ≤ 244) then
      match rest with
      | [] => [65533]
      | [b2] =>
        if contByte b2 && (decide (b ≠ 240) || decide (144 ≤ b2)) &&
            (decide (b ≠ 244) || decide (b2 ≤ 143)) then
          [65533]
        else
          65533 :: utf8DecodeAux fuel [b2]
      | [b2, b3] =>
        if contByte b2 && (decide (b ≠ 240) || decide (144 ≤ b2)) &&
            (decide (b ≠ 244) || decide (b2 ≤ 143)) then
          if contByte b3 then [65533]
          else 65533 :: utf8DecodeAux fuel [b2, b3]
        else
          65533 :: utf8DecodeAux fuel [b2, b3]
      | b2 :: b3 :: b4 :: rest4 =>
        if contByte b2 && (decide (b ≠ 240) || decide (144 ≤ b2)) &&
            (decide (b ≠ 244) || decide (b2 ≤ 143)) then
          if contByte b3 then
            if contByte b4 then
              ((b - 240) * 262144 + (b2 - 128) * 4096 + (b3 - 128) * 64 +
                  (b4 - 128)) :: utf8DecodeAux fuel rest4
            else
              65533 :: utf8DecodeAux fuel (b2 :: b3 :: b4 :: rest4)
          else
            65533 :: utf8DecodeAux fuel (b2 :: b3 :: b4 :: rest4)
        else
          65533 :: utf8DecodeAux fuel (b2 :: b3 :: b4 :: rest4)
    else
      65533 :: utf8DecodeAux fuel rest

/-- UTF-8 decode of a full byte list. -/
def utf8DecodeBytes (l : List Nat) : List Nat :=
  utf8DecodeAux l.length l

/-- Code points of the string `'%PDF-'`. -/
def pdfHeaderCodes : List Nat := [37, 80, 68, 70, 45]

/-- `validatePDF` from `lib/pdf-utils.ts`:
`buffer.toString('utf8', 0, 5) === '%PDF-'`. -/
def validatePDF (buffer : List Nat) : Bool :=
  decide (utf8DecodeBytes (buffer.take 5) = pdfHeaderCodes)

/-! ## In-memory store (`lib/store.ts`)

A JS `Map` keyed by number, modelled as an insertion-ordered association
list with unique keys: `set` replaces in place for an existing key and
appends for a fresh one; `delete` removes the entry; `values()` yields
insertion order. -/

/-- `Map.set k v` on an insertion-ordered association list. -/
def mapSet (l : List (Nat × Applicant)) (k : Nat) (v : Applicant) :
    List (Nat × Applicant) :=
  match l with
  | [] => [(k, v)]
  | (k', v') :: t => if k' = k then (k, v) :: t else (k', v') :: mapSet t k v

/-- `Map.delete k` (removal part). -/
def mapDelete (l : List (Nat × Applicant)) (k : Nat) :
    List (Nat × Applicant) :=
  match l with
  | [] => []
  | (k', v') :: t => if k' = k then t else (k', v') :: mapDelete t k

/-- `Map.get k`. -/
def lookupId (l : List (Nat × Applicant)) (k : Nat) : Option Applicant :=
  match l with
  | [] => none
  | (k', v) :: t => if k' = k then some v else lookupId t k

/-- `Map.has k`. -/
def containsKey (l : List (Nat × Applicant)) (k : Nat) : Bool :=
  match l with
  | [] => false
  | (k', _) :: t => if k' = k then true else containsKey t k

/-- The `InMemoryStore` state: the applicants map and the `nextId` counter. -/
structure Store where
  applicants : List (Nat × Applicant)
  nextId : Nat
deriving DecidableEq, Repr

/-- A fresh store: empty map, counter at 1. -/
def emptyStore : Store := ⟨[], 1⟩

/-- `Omit<Applicant, 'id'>`, the argument of `addApplicant`. -/
structure ApplicantInput where
  name : Option String
  email : Option String
  phone : Option String
  source : String
  position_applied : Option String
  created_at : String
  updated_at : String
  documents : List Document
  screening_result : Option ScreeningResult
deriving DecidableEq, Repr

/-- Build the stored `Applicant` from the input plus the assigned id. -/
def applicantOf (inp : ApplicantInput) (id : Nat) : Applicant :=
  { id := id
    name := inp.name
    email := inp.email
    phone := inp.phone
    source := inp.source
    position_applied := inp.position_applied
    created_at := inp.created_at
    updated_at := inp.updated_at
    documents := inp.documents
    screening_result := inp.screening_result }

/-- `addApplicant`: assign `nextId`, increment the counter, store the record. -/
def addApplicant (s : Store) (inp : ApplicantInput) : Applicant × Store :=
  let id := s.nextId
  let a := applicantOf inp id
  (a, ⟨mapSet s.applicants id a, s.nextId + 1⟩)

/-- `getApplicant`. -/
def getApplicant (s : Store) (id : Nat) : Option Applicant :=
  lookupId s.applicants id

/-- `getAllApplicants`: `Array.from(map.values())`, insertion order. -/
def getAllApplicants (s : Store) : List Applicant :=
  s.applicants.map Prod.snd

/-- `Partial<Applicant>`: each field optionally present. -/
structure ApplicantUpdate where
  id : Option Nat
  name : Option (Option String)
  email : Option (Option String)
  phone : Option (Option String)
  source : Option String
  position_applied : Option (Option String)
  created_at : Option String
  updated_at : Option String
  documents : Option (List Document)
  screening_result : Option (Option ScreeningResult)
deriving DecidableEq, Repr

/-- The spread `{ ...applicant, ...updates }`. -/
def mergeApplicant (a : Applicant) (u : ApplicantUpdate) : Applicant :=
  { id := u.id.getD a.id
    name := u.name.getD a.name
    email := u.email.getD a.email
    phone := u.phone.getD a.phone
    source := u.source.getD a.source
    position_applied := u.position_applied.getD a.position_applied
    created_at := u.created_at.getD a.created_at
    updated_at := u.updated_at.getD a.updated_at
    documents := u.documents.getD a.documents
    screening_result := u.screening_result.getD a.screening_result }

/-- `updateApplicant`: merge into the existing record; absent id is a no-op. -/
def updateApplicant (s : Store) (id : Nat) (u : ApplicantUpdate) :
    Option Applicant × Store :=
  match lookupId s.applicants id with
  | none => (none, s)
  | some a =>
    let upd := mergeApplicant a u
    (some upd, ⟨mapSet s.applicants id upd, s.nextId⟩)

/-- `deleteApplicant`: `Map.delete` returns whether the key existed. -/
def deleteApplicant (s : Store) (id : Nat) : Bool × Store :=
  if containsKey s.applicants id then (true, ⟨mapDelete s.applicants id, s.nextId⟩)
  else (false, s)

/-- `clear`: empty the map and reset the counter to 1. -/
def clearStore (_s : Store) : Store := emptyStore

/-- Store well-formedness: every key is below `nextId` and keys are unique.
It holds for `emptyStore` and is preserved by every operation. -/
def StoreWF (s : Store) : Prop :=
  (∀ p ∈ s.applicants, p.1 < s.nextId) ∧ (s.applicants.map Prod.fst).Nodup

/-! ## Scoring oracle client (`screenApplicant` in `upload/route.ts`)

The OpenAI call and `JSON.parse` are opaque: the call outcome is an
`Except` of the returned `message.content` (`string | null`), and the
parser is a parameter `String → Except String OracleJson`.  A thrown
parse error lands in the same `catch` as a failed call. -/

/-- The fields `screenApplicant` reads off the parsed oracle JSON; `none`
stands for an absent (or `null`, hence falsy) field. -/
structure OracleJson where
  overall_score : Option ℚ
  resume_score : Option ℚ
  cover_letter_score : Option ℚ
  transcript_score : Option ℚ
  strengths : Option (List String)
  weaknesses : Option (List String)
  reasoning : Option String
  recommended_for_interview : Option Bool
  confidence_level : Option String
deriving DecidableEq, Repr

/-- The parse of `'\x7b\x7d'` (the empty JSON object): every field absent. -/
def emptyOracleJson : OracleJson :=
  ⟨none, none, none, none, none, none, none, none, none⟩

/-- `JSON.stringify` on one string: quote and escape. -/
def jsonEscapeChar (c : Char) : String :=
  if c = '"' then "\\\""
  else if c = '\\' then "\\\\"
  else if c = '\n' then "\\n"
  else if c = '\t' then "\\t"
  else if c = '\r' then "\\r"
  else String.singleton c

/-- Escape a string for JSON. -/
def jsonEscape (s : String) : String :=
  String.join (s.toList.map jsonEscapeChar)

/-- `JSON.stringify` of an array of strings. -/
def jsonStringifyStrings (l : List String) : String :=
  "[" ++ String.intercalate "," (l.map (fun s => "\"" ++ jsonEscape s ++ "\"")) ++ "]"

/-- `ScreeningResult` minus `id`, `applicant_id`, `screened_at` — the
return type of `screenApplicant`. -/
structure ScreenRec where
  overall_score : ℚ
  resume_score : Option ℚ
  cover_letter_score : Option ℚ
  transcript_score : Option ℚ
  strengths : String
  weaknesses : String
  reasoning : String
  recommended_for_interview : Bool
  confidence_level : String
  rank : Option ℚ
  percentile : Option ℚ
  ai_model_used : String
deriving DecidableEq, Repr

/-- The success-path record built from a successfully parsed response,
with the `||` defaults of the source. -/
def successRecord (j : OracleJson) : ScreenRec :=
  { overall_score := jsNumOr j.overall_score 50
    resume_score := jsNumOrNull j.resume_score
    cover_letter_score := jsNumOrNull j.cover_letter_score
    transcript_score := jsNumOrNull j.transcript_score
    strengths := jsonStringifyStrings (j.strengths.getD [])
    weaknesses := jsonStringifyStrings (j.weaknesses.getD [])
    reasoning := jsStrOr j.reasoning ""
    recommended_for_interview := j.recommended_for_interview.getD false
    confidence_level := jsStrOr j.confidence_level "medium"
    rank := none
    percentile := none
    ai_model_used := "gpt-4o" }

/-- The deterministic fallback record returned from the `catch` branch. -/
def fallbackRecord (err : String) : ScreenRec :=
  { overall_score := 30
    resume_score := none
    cover_letter_score := none
    transcript_score := none
    strengths := jsonStringifyStrings ["Unable to analyze"]
    weaknesses := jsonStringifyStrings ["Screening failed"]
    reasoning := "Automated screening encountered an error: " ++ err
    recommended_for_interview := false
    confidence_level := "low"
    rank := none
    percentile := none
    ai_model_used := "gpt-4o" }

/-- The string `'\x7b\x7d'`, the default body `content || '\x7b\x7d'`. -/
def jsonEmptyObjectText : String := "\x7b\x7d"

/-- `screenApplicant`: call the oracle, parse `content || '\x7b\x7d'`,
default missing fields; any call or parse failure yields the fallback. -/
def screenApplicant (_resumeText _coverLetterText _transcriptText : String)
    (callOutcome : Except String (Option String))
    (parse : String → Except String OracleJson) : ScreenRec :=
  match callOutcome with
  | .error e => fallbackRecord e
  | .ok content =>
    match parse (jsStrOr content jsonEmptyObjectText) with
    | .error e => fallbackRecord e
    | .ok j => successRecord j

/-- Attach identifiers and timestamp:
`{ ...screeningResult, id, applicant_id, screened_at }`. -/
def toScreeningResult (r : ScreenRec) (id : Nat) (now : String) :
    ScreeningResult :=
  { id := id
    applicant_id := id
    overall_score := r.overall_score
    resume_score := r.resume_score
    cover_letter_score := r.cover_letter_score
    transcript_score := r.transcript_score
    strengths := r.strengths
    weaknesses := r.weaknesses
    reasoning := r.reasoning
    recommended_for_interview := r.recommended_for_interview
    confidence_level := r.confidence_level
    rank := r.rank
    percentile := r.percentile
    screened_at := now
    ai_model_used := r.ai_model_used }

/-! ## Upload handler (`POST` in `upload/route.ts`) -/

/-- A multipart file: name and raw bytes. -/
structure FileData where
  name : String
  bytes : List Nat
deriving DecidableEq, Repr

/-- The form fields of an upload request (`formData.get` results). -/
structure UploadRequest where
  name : Option String
  email : Option String
  phone : Option String
  position_applied : Option String
  source : Option String
  resume : Option FileData
  cover_letter : Option FileData
  transcript : Option FileData
deriving DecidableEq, Repr

/-- The JSON responses of the upload handler. -/
inductive PostResponse where
  | ok (message : String) (applicant_id : Nat) (documents_uploaded : Nat)
      (screening_started : Bool)
  | err (error : String) (status : Nat)
deriving DecidableEq, Repr

/-- The per-document-kind error message of the upload handler. -/
def invalidPdfMsg (dtype : DocType) : String :=
  match dtype with
  | .resume => "Invalid resume PDF"
  | .cover_letter => "Invalid cover letter PDF"
  | .transcript => "Invalid transcript PDF"
  | .combined => "Invalid PDF"

/-- One document-processing step of `POST`: validate the PDF, extract its
text, append a `Document` record, bump the counter; an invalid PDF stops
the handler with the branch's 400 message. -/
def processDoc (file : Option FileData) (dtype : DocType)
    (extract : List Nat → String) (now : String)
    (docs : List Document) (count : Nat) :
    Except String (List Document × Nat × String) :=
  match file with
  | none => .ok (docs, count, "")
  | some f =>
    if validatePDF f.bytes then
      let text := extract f.bytes
      .ok (docs ++ [{ id := count + 1
                      document_type := dtype
                      file_path := "/uploads/" ++ f.name
                      original_filename := f.name
                      extracted_text := some text
                      file_size_bytes := some f.bytes.length
                      uploaded_at := now }], count + 1, text)
    else .error (invalidPdfMsg dtype)

/-- The `Partial<Applicant>` update `POST` issues after screening. -/
def screeningUpdate (sr : ScreeningResult) : ApplicantUpdate :=
  ⟨none, none, none, none, none, none, none, none, none, some (some sr)⟩

/-- The applicant record `POST` hands to `addApplicant` (screening still
absent): form fields with their `|| null` / `|| 'handshake'` defaults. -/
def uploadInput (req : UploadRequest) (docs : List Document)
    (now : String) : ApplicantInput :=
  { name := jsStrOrNull req.name
    email := jsStrOrNull req.email
    phone := jsStrOrNull req.phone
    source := jsStrOr req.source "handshake"
    position_applied := jsStrOrNull req.position_applied
    created_at := now
    updated_at := now
    documents := docs
    screening_result := none }

/-- The `POST` upload handler: reject when no document is given, validate
each provided PDF, create the applicant, screen, attach the result. -/
def uploadPOST (req : UploadRequest) (extract : List Nat → String)
    (callOutcome : Except String (Option String))
    (parse : String → Except String OracleJson)
    (now : String) (s : Store) : PostResponse × Store :=
  if req.resume.isNone && req.cover_letter.isNone && req.transcript.isNone then
    (.err "At least one document must be provided" 400, s)
  else
    match processDoc req.resume .resume extract now [] 0 with
    | .error m => (.err m 400, s)
    | .ok (docs1, c1, resumeText) =>
      match processDoc req.cover_letter .cover_letter extract now docs1 c1 with
      | .error m => (.err m 400, s)
      | .ok (docs2, c2, coverLetterText) =>
        match processDoc req.transcript .transcript extract now docs2 c2 with
        | .error m => (.err m 400, s)
        | .ok (docs3, c3, transcriptText) =>
          let added := addApplicant s (uploadInput req docs3 now)
          let sr := screenApplicant resumeText coverLetterText transcriptText
            callOutcome parse
          let s2 := (updateApplicant added.2 added.1.id
            (screeningUpdate (toScreeningResult sr added.1.id now))).2
          (.ok "Successfully uploaded documents for applicant" added.1.id c3 true,
            s2)

/-! ## Analytics routes (`analytics/summary`, top candidates, `DELETE`) -/

/-- `a.screening_result!.overall_score` (resp. the `?.` access with `|| 0`):
the overall score, `0` when no screening result is attached. -/
def overallOf (a : Applicant) : ℚ :=
  match a.screening_result with
  | some r => r.overall_score
  | none => 0

/-- The comparator key `a.screening_result?.overall_score || 0`. -/
def sortKey (a : Applicant) : ℚ :=
  jsNumOr (a.screening_result.map ScreeningResult.overall_score) 0

/-- `a.screening_result?.recommended_for_interview === true`. -/
def recommendedOf (a : Applicant) : Bool :=
  match a.screening_result with
  | some r => r.recommended_for_interview
  | none => false

/-- The scored sublist: `getAllApplicants().filter(a => a.screening_result !== null)`. -/
def scoredOf (s : Store) : List Applicant :=
  (getAllApplicants s).filter (fun a => a.screening_result.isSome)

/-- `Math.round`: round half toward positive infinity. -/
def jsRound (q : ℚ) : ℤ := ⌊q + 1 / 2⌋

/-- The summary payload of `GET /api/applicants/analytics/summary`. -/
structure ScreeningSummary where
  total_applicants : Nat
  screened_count : Nat
  pending_count : Nat
  top_15_percent_count : Nat
  average_score : ℚ
  recommended_count : Nat
deriving DecidableEq, Repr

/-- The summary route: counts, top-15% count, mean score rounded to one
decimal place, recommended count. -/
def getSummary (s : Store) : ScreeningSummary :=
  let applicants := getAllApplicants s
  let totalApplicants := applicants.length
  let screenedCount := (applicants.filter (fun a => a.screening_result.isSome)).length
  let pendingCount := totalApplicants - screenedCount
  let top15Count :=
    if 0 < screenedCount then (max 1 ⌊(screenedCount : ℚ) * (0.15 : ℚ)⌋).toNat
    else 0
  let scores := (applicants.filter (fun a => a.screening_result.isSome)).map overallOf
  let avgScore := if 0 < scores.length then scores.sum / (scores.length : ℚ) else 0
  let recommendedCount := (applicants.filter (fun a => recommendedOf a)).length
  { total_applicants := totalApplicants
    screened_count := screenedCount
    pending_count := pendingCount
    top_15_percent_count := top15Count
    average_score := (jsRound (avgScore * 10) : ℚ) / 10
    recommended_count := recommendedCount }

/-- Insert into a list sorted descending by `sortKey`, after all elements
whose comparator against `x` is `≤ 0` — the position a stable sort with
comparator `(a, b) => sortKey b - sortKey a` assigns. -/
def insertByScore (x : Applicant) : List Applicant → List Applicant
  | [] => [x]
  | y :: ys => if sortKey y - sortKey x < 0 then x :: y :: ys
               else y :: insertByScore x ys

/-- The stable descending-by-score sort of
`applicants.sort((a, b) => scoreB - scoreA)`; stable sorts for a total
comparator have a unique output, so insertion sort models the JS sort. -/
def sortByScoreDesc (l : List Applicant) : List Applicant :=
  l.foldl (fun acc x => insertByScore x acc) []

/-- The payload of the top-candidates route. -/
structure TopCandidatesResponse where
  total_count : Nat
  top_percentage : ℚ
  candidates : List Applicant
deriving DecidableEq, Repr

/-- The top-candidates route: filter to scored applicants, sort descending
by score, return the first `max(1, floor(count * percentage / 100))`. -/
def getTopCandidates (percentage : ℚ) (s : Store) : TopCandidatesResponse :=
  let applicants := scoredOf s
  if applicants.length = 0 then
    ⟨0, percentage, []⟩
  else
    let sorted := sortByScoreDesc applicants
    let topCount : ℤ := max 1 ⌊(applicants.length : ℚ) * (percentage / 100)⌋
    ⟨applicants.length, percentage, sorted.take topCount.toNat⟩

/-- The `DELETE /api/applicants/[id]` responses. -/
inductive DeleteResponse where
  | ok (message : String)
  | err (error : String) (status : Nat)
deriving DecidableEq, Repr

/-- The `DELETE` handler: 404 when the id is unknown. -/
def deleteHandler (id : Nat) (s : Store) : DeleteResponse × Store :=
  let r := deleteApplicant s id
  if r.1 then (.ok "Applicant deleted successfully", r.2)
  else (.err "Applicant not found" 404, r.2)

/-! ## Store operation traces (for the identifier-assignment claims) -/

/-- A mutating store operation. -/
inductive Op where
  | insert (a : ApplicantInput)
  | update (id : Nat) (u : ApplicantUpdate)
  | delete (id : Nat)
  | clear
deriving DecidableEq, Repr

/-- Apply one operation, discarding the returned value. -/
def applyOp (s : Store) : Op → Store
  | .insert a => (addApplicant s a).2
  | .update id u => (updateApplicant s id u).2
  | .delete id => (deleteApplicant s id).2
  | .clear => clearStore s

/-- Apply a sequence of operations. -/
def applyOps (s : Store) (ops : List Op) : Store := ops.foldl applyOp s

/-- The identifiers handed out by the inserts of a trace, in order. -/
def assignedIds (s : Store) : List Op → List Nat
  | [] => []
  | op :: t =>
    match op with
    | .insert _ => s.nextId :: assignedIds (applyOp s op) t
    | _ => assignedIds (applyOp s op) t

/-- The number of inserts in a trace. -/
def countInserts : List Op → Nat
  | [] => 0
  | op :: t =>
    match op with
    | .insert _ => countInserts t + 1
    | _ => countInserts t

/-! ## Lemmas: UTF-8 decoding and `validatePDF` -/

/-- A decode step on a non-ASCII lead byte never emits an ASCII code point. -/
lemma utf8DecodeAux_head_ge (fuel b : Nat) (rest : List Nat) (c : Nat)
    (cs : List Nat) (hb : 128 ≤ b)
    (h : utf8DecodeAux (fuel + 1) (b :: rest) = c :: cs) : 128 ≤ c := by
  simp only [utf8DecodeAux] at h
  rw [if_neg (by omega)] at h
  repeat' split at h
  all_goals
    simp only [contByte, Bool.and_eq_true, Bool.or_eq_true, decide_eq_true_eq] at *
  all_goals injection h with h1 h2
  all_goals omega

/-- Decoding a nonempty byte list yields a nonempty code-point list
(given enough fuel). -/
lemma utf8DecodeAux_eq_nil (fuel : Nat) (l : List Nat) (hl : l.length ≤ fuel)
    (h : utf8DecodeAux fuel l = []) : l = [] := by
  cases l with
  | nil => rfl
  | cons b rest =>
    exfalso
    cases fuel with
    | zero => simp at hl
    | succ f =>
      simp only [utf8DecodeAux] at h
      repeat' split at h
      all_goals simp at h

/-- Inversion: an ASCII code point at the head of the decode comes from
that very byte at the head of the input. -/
lemma utf8DecodeAux_ascii (fuel : Nat) (l : List Nat) (c : Nat)
    (cs : List Nat) (hl : l.length ≤ fuel)
    (h : utf8DecodeAux fuel l = c :: cs) (hc : c < 128) :
    ∃ t, l = c :: t ∧ utf8DecodeAux (fuel - 1) t = cs ∧ t.length ≤ fuel - 1 := by
  cases l with
  | nil => simp [utf8DecodeAux] at h
  | cons b rest =>
    cases fuel with
    | zero => simp at hl
    | succ f =>
      by_cases hb : b < 128
      · simp only [utf8DecodeAux, if_pos hb] at h
        injection h with h1 h2
        subst h1
        refine ⟨rest, rfl, by simpa using h2, ?_⟩
        simp only [List.length_cons] at hl
        omega
      · exact absurd (utf8DecodeAux_head_ge f b rest c cs (by omega) h)
          (by omega)

/-- Claim C5: `validatePDF` returns true exactly when the first five
bytes are the ASCII sequence `%PDF-`; in particular it is false on every
buffer shorter than five bytes, and it depends only on the first five
bytes. -/
theorem validatePDF_spec (b : List Nat) :
    (validatePDF b = true ↔ b.take 5 = pdfHeaderCodes) ∧
    (b.length < 5 → validatePDF b = false) ∧
    validatePDF b = validatePDF (b.take 5) := by
  have hiff : validatePDF b = true ↔ b.take 5 = pdfHeaderCodes := by
    constructor
    · intro h
      have h0 : utf8DecodeAux (b.take 5).length (b.take 5) =
          37 :: 80 :: 68 :: 70 :: 45 :: [] := by
        simpa [validatePDF, utf8DecodeBytes, pdfHeaderCodes] using h
      obtain ⟨t1, e1, h1, l1⟩ :=
        utf8DecodeAux_ascii _ _ _ _ le_rfl h0 (by omega)
      obtain ⟨t2, e2, h2, l2⟩ := utf8DecodeAux_ascii _ _ _ _ l1 h1 (by omega)
      obtain ⟨t3, e3, h3, l3⟩ := utf8DecodeAux_ascii _ _ _ _ l2 h2 (by omega)
      obtain ⟨t4, e4, h4, l4⟩ := utf8DecodeAux_ascii _ _ _ _ l3 h3 (by omega)
      obtain ⟨t5, e5, h5, l5⟩ := utf8DecodeAux_ascii _ _ _ _ l4 h4 (by omega)
      have ht5 : t5 = [] := utf8DecodeAux_eq_nil _ _ l5 h5
      subst ht5
      rw [pdfHeaderCodes, e1, e2, e3, e4, e5]
    · intro h
      rw [validatePDF, h]
      decide
  refine ⟨hiff, ?_, ?_⟩
  · intro hlen
    by_contra h'
    have hv : validatePDF b = true := by
      revert h'
      cases validatePDF b <;> simp
    have h5 : b.take 5 = pdfHeaderCodes := hiff.mp hv
    have : (b.take 5).length = 5 := by rw [h5]; rfl
    simp only [List.length_take] at this
    omega
  · simp [validatePDF, List.take_take]

/-! ## Lemmas: the in-memory store -/

/-- `Map.set` with a fresh key appends at the end. -/
lemma mapSet_notMem (l : List (Nat × Applicant)) (k : Nat) (v : Applicant)
    (h : k ∉ l.map Prod.fst) : mapSet l k v = l ++ [(k, v)] := by
  induction l with
  | nil => rfl
  | cons p t ih =>
    obtain ⟨k', v'⟩ := p
    simp only [List.map_cons, List.mem_cons, not_or] at h
    rw [mapSet]
    rw [if_neg (fun e => h.1 e.symm)]
    simp [ih h.2]

/-- Lookup of a key appended behind entries that do not carry it. -/
lemma lookup_append_right (l : List (Nat × Applicant)) (k : Nat)
    (v : Applicant) (h : k ∉ l.map Prod.fst) :
    lookupId (l ++ [(k, v)]) k = some v := by
  induction l with
  | nil => simp [lookupId]
  | cons p t ih =>
    obtain ⟨k', v'⟩ := p
    simp only [List.map_cons, List.mem_cons, not_or] at h
    simp only [List.cons_append, lookupId]
    rw [if_neg (fun e => h.1 e.symm)]
    exact ih h.2

/-- `Map.set` of an appended fresh key replaces only that last entry. -/
lemma mapSet_append_right (l : List (Nat × Applicant)) (k : Nat)
    (v v' : Applicant) (h : k ∉ l.map Prod.fst) :
    mapSet (l ++ [(k, v)]) k v' = l ++ [(k, v')] := by
  induction l with
  | nil => simp [mapSet]
  | cons p t ih =>
    obtain ⟨k', w⟩ := p
    simp only [List.map_cons, List.mem_cons, not_or] at h
    simp only [List.cons_append, mapSet]
    rw [if_neg (fun e => h.1 e.symm)]
    simp [ih h.2]

/-- `Map.get` and `Map.has` agree on absence. -/
lemma lookupId_none_iff (l : List (Nat × Applicant)) (k : Nat) :
    lookupId l k = none ↔ containsKey l k = false := by
  induction l with
  | nil => simp [lookupId, containsKey]
  | cons p t ih =>
    obtain ⟨k', v⟩ := p
    by_cases e : k' = k <;> simp [lookupId, containsKey, e, ih]

/-- In a well-formed store the about-to-be-assigned id is absent. -/
lemma nextId_notMem (s : Store) (hwf : StoreWF s) :
    s.nextId ∉ s.applicants.map Prod.fst := by
  intro hm
  obtain ⟨p, hp, he⟩ := List.mem_map.mp hm
  have := hwf.1 p hp
  omega

/-- Claim C8: deleting an identifier that is not in the store returns the
not-found indicator and leaves applicants, count and counter untouched;
the `DELETE` route surfaces this as a 404. -/
theorem deleteApplicant_absent (s : Store) (id : Nat)
    (h : getApplicant s id = none) :
    deleteApplicant s id = (false, s) ∧
    (deleteApplicant s id).2.applicants = s.applicants ∧
    (getAllApplicants (deleteApplicant s id).2).length =
      (getAllApplicants s).length ∧
    (deleteApplicant s id).2.nextId = s.nextId ∧
    deleteHandler id s = (DeleteResponse.err "Applicant not found" 404, s) := by
  have hc : containsKey s.applicants id = false :=
    (lookupId_none_iff s.applicants id).mp h
  have hd : deleteApplicant s id = (false, s) := by
    simp [deleteApplicant, hc]
  refine ⟨hd, by rw [hd], by rw [hd], by rw [hd], ?_⟩
  simp [deleteHandler, hd]

/-- Witness for C8 on a concrete store and identifier. -/
theorem deleteApplicant_absent_witness :
    deleteApplicant emptyStore 7 = (false, emptyStore) ∧
    (deleteApplicant emptyStore 7).2.applicants = emptyStore.applicants ∧
    (getAllApplicants (deleteApplicant emptyStore 7).2).length =
      (getAllApplicants emptyStore).length ∧
    (deleteApplicant emptyStore 7).2.nextId = emptyStore.nextId ∧
    deleteHandler 7 emptyStore =
      (DeleteResponse.err "Applicant not found" 404, emptyStore) :=
  deleteApplicant_absent emptyStore 7 rfl

/-! ## Lemmas: identifier assignment along operation traces -/

/-- Non-insert, non-clear operations keep the counter. -/
lemma applyOp_nextId_update (s : Store) (id : Nat) (u : ApplicantUpdate) :
    (applyOp s (Op.update id u)).nextId = s.nextId := by
  rcases hl : lookupId s.applicants id with _ | a <;>
    simp [applyOp, updateApplicant, hl]

/-- Deletion keeps the counter. -/
lemma applyOp_nextId_delete (s : Store) (id : Nat) :
    (applyOp s (Op.delete id)).nextId = s.nextId := by
  by_cases hc : containsKey s.applicants id <;>
    simp [applyOp, deleteApplicant, hc]

/-- On a clear-free trace the assigned identifiers are the consecutive
run starting at the current counter. -/
lemma assignedIds_range (ops : List Op) :
    ∀ s : Store, Op.clear ∉ ops →
      assignedIds s ops = List.range' s.nextId (countInserts ops) := by
  induction ops with
  | nil => intro s _; rfl
  | cons op t ih =>
    intro s h
    have ht : Op.clear ∉ t := fun hm => h (List.mem_cons_of_mem _ hm)
    cases op with
    | insert a =>
      simp only [assignedIds, countInserts]
      rw [ih _ ht]
      have hnext : (applyOp s (Op.insert a)).nextId = s.nextId + 1 := rfl
      rw [hnext, List.range']
    | update id u =>
      simp only [assignedIds, countInserts]
      rw [ih _ ht, applyOp_nextId_update]
    | delete id =>
      simp only [assignedIds, countInserts]
      rw [ih _ ht, applyOp_nextId_delete]
    | clear => exact absurd (List.mem_cons_self _ _) h

/-- Claim C6: across any clear-free trace started on a fresh store the
inserts hand out exactly the identifiers `1, 2, …, k` in order (deletes
never cause reuse), and appending a `clear` returns the store to the
fresh state: empty map, counter 1. -/
theorem store_identifier_assignment (ops : List Op) :
    (Op.clear ∉ ops →
      assignedIds emptyStore ops = List.range' 1 (countInserts ops)) ∧
    applyOps emptyStore (ops ++ [Op.clear]) = emptyStore ∧
    emptyStore.applicants = [] ∧ emptyStore.nextId = 1 := by
  refine ⟨fun h => assignedIds_range ops emptyStore h, ?_, rfl, rfl⟩
  rw [applyOps, List.foldl_append]
  rfl

/-- A minimal concrete applicant input for witnesses. -/
def sampleInput : ApplicantInput :=
  { name := none
    email := none
    phone := none
    source := "handshake"
    position_applied := none
    created_at := "t"
    updated_at := "t"
    documents := []
    screening_result := none }

/-- Witness for C6: a trace with an interleaved delete assigns `[1, 2]`. -/
theorem store_identifier_assignment_witness :
    assignedIds emptyStore
        [Op.insert sampleInput, Op.delete 1, Op.insert sampleInput] =
      List.range' 1
        (countInserts [Op.insert sampleInput, Op.delete 1,
          Op.insert sampleInput]) :=
  (store_identifier_assignment _).1 (by decide)

/-! ## Screening-client claims -/

/-- Claim C9: every record `screenApplicant` produces — on the success
path or the fallback path — has `rank = null` and `percentile = null`,
and attaching identifiers preserves this. -/
theorem screening_rank_percentile_null
    (rt ct tt : String) (callOutcome : Except String (Option String))
    (parse : String → Except String OracleJson) (id : Nat) (now : String) :
    (screenApplicant rt ct tt callOutcome parse).rank = none ∧
    (screenApplicant rt ct tt callOutcome parse).percentile = none ∧
    (toScreeningResult (screenApplicant rt ct tt callOutcome parse) id
        now).rank = none ∧
    (toScreeningResult (screenApplicant rt ct tt callOutcome parse) id
        now).percentile = none := by
  rcases callOutcome with e | content
  · simp [screenApplicant, fallbackRecord, toScreeningResult]
  · rcases hp : parse (jsStrOr content jsonEmptyObjectText) with e | j <;>
      simp [screenApplicant, hp, fallbackRecord, successRecord,
        toScreeningResult]

/-- Counterexample to claim C4 as stated: on the successfully parsed
empty response every component score defaults to `null`, not to 50 —
only `overall_score` defaults to 50. -/
theorem component_defaults_counterexample :
    (screenApplicant "" "" "" (Except.ok none)
        (fun _ => Except.ok emptyOracleJson)).resume_score = none ∧
    (screenApplicant "" "" "" (Except.ok none)
        (fun _ => Except.ok emptyOracleJson)).overall_score = 50 ∧
    (none : Option ℚ) ≠ some 50 := by
  refine ⟨rfl, rfl, by simp⟩

/-- Claim C4, amended: on a successfully parsed response an omitted
`overall_score` defaults to 50 while omitted component scores default to
`null`; the success default 50 is distinct from the failure fallback 30. -/
theorem numeric_defaults (rt ct tt : String) (content : Option String)
    (parse : String → Except String OracleJson) (j : OracleJson)
    (hparse : parse (jsStrOr content jsonEmptyObjectText) = Except.ok j) :
    screenApplicant rt ct tt (Except.ok content) parse = successRecord j ∧
    (j.overall_score = none → (successRecord j).overall_score = 50) ∧
    (j.resume_score = none → (successRecord j).resume_score = none) ∧
    (j.cover_letter_score = none →
      (successRecord j).cover_letter_score = none) ∧
    (j.transcript_score = none → (successRecord j).transcript_score = none) ∧
    (∀ e, (screenApplicant rt ct tt (Except.error e) parse).overall_score
      = 30) ∧
    (50 : ℚ) ≠ 30 := by
  refine ⟨by simp [screenApplicant, hparse], ?_, ?_, ?_, ?_, ?_, by norm_num⟩
  · intro h; simp [successRecord, jsNumOr, h]
  · intro h; simp [successRecord, jsNumOrNull, h]
  · intro h; simp [successRecord, jsNumOrNull, h]
  · intro h; simp [successRecord, jsNumOrNull, h]
  · intro e; simp [screenApplicant, fallbackRecord]

/-- Witness for the amended C4 at a concrete parser and response. -/
theorem numeric_defaults_witness :
    screenApplicant "" "" "" (Except.ok (some "x"))
        (fun _ => Except.ok emptyOracleJson) =
      successRecord emptyOracleJson ∧
    (emptyOracleJson.overall_score = none →
      (successRecord emptyOracleJson).overall_score = 50) ∧
    (emptyOracleJson.resume_score = none →
      (successRecord emptyOracleJson).resume_score = none) ∧
    (emptyOracleJson.cover_letter_score = none →
      (successRecord emptyOracleJson).cover_letter_score = none) ∧
    (emptyOracleJson.transcript_score = none →
      (successRecord emptyOracleJson).transcript_score = none) ∧
    (∀ e, (screenApplicant "" "" "" (Except.error e)
        (fun _ => Except.ok emptyOracleJson)).overall_score = 30) ∧
    (50 : ℚ) ≠ 30 :=
  numeric_defaults "" "" "" (some "x") _ emptyOracleJson rfl

/-- Claim C10: successfully parsed responses take success-path defaults
for the non-numeric fields — confidence `medium`, strengths and
weaknesses the encoded empty array, reasoning empty — and an absent or
empty body parses as the empty object, yielding the success-path record,
never the fallback. -/
theorem success_path_defaults (rt ct tt : String) (content : Option String)
    (parse : String → Except String OracleJson)
    (hparse : parse jsonEmptyObjectText = Except.ok emptyOracleJson)
    (hcontent : content = none ∨ content = some "") :
    screenApplicant rt ct tt (Except.ok content) parse =
      successRecord emptyOracleJson ∧
    (successRecord emptyOracleJson).confidence_level = "medium" ∧
    (successRecord emptyOracleJson).strengths = "[]" ∧
    (successRecord emptyOracleJson).weaknesses = "[]" ∧
    (successRecord emptyOracleJson).reasoning = "" ∧
    (∀ j : OracleJson,
      (j.confidence_level = none ∨ j.confidence_level = some "") →
        (successRecord j).confidence_level = "medium") ∧
    (∀ j : OracleJson, j.strengths = none → (successRecord j).strengths
      = "[]") ∧
    (∀ j : OracleJson, j.weaknesses = none → (successRecord j).weaknesses
      = "[]") ∧
    (∀ j : OracleJson, (j.reasoning = none ∨ j.reasoning = some "") →
      (successRecord j).reasoning = "") ∧
    (∀ e, successRecord emptyOracleJson ≠ fallbackRecord e) := by
  have hempty : "medium" ≠ "low" := by decide
  refine ⟨?_, rfl, by decide, by decide, rfl, ?_, ?_, ?_, ?_, ?_⟩
  · rcases hcontent with rfl | rfl <;>
      simp [screenApplicant, jsStrOr, hparse]
  · intro j hj
    rcases hj with h | h <;> simp [successRecord, jsStrOr, h]
  · intro j hj
    simp only [successRecord, hj, Option.getD_none]
    decide
  · intro j hj
    simp only [successRecord, hj, Option.getD_none]
    decide
  · intro j hj
    rcases hj with h | h <;> simp [successRecord, jsStrOr, h]
  · intro e hcontra
    have := congrArg ScreenRec.confidence_level hcontra
    simp [successRecord, fallbackRecord, jsStrOr] at this
    exact hempty this

/-- Witness for C10: the absent body with an honest parser of the empty
object yields exactly the success-path defaults. -/
theorem success_path_defaults_witness :
    screenApplicant "" "" "" (Except.ok none)
        (fun _ => Except.ok emptyOracleJson) =
      successRecord emptyOracleJson ∧
    (successRecord emptyOracleJson).confidence_level = "medium" ∧
    (successRecord emptyOracleJson).strengths = "[]" ∧
    (successRecord emptyOracleJson).weaknesses = "[]" ∧
    (successRecord emptyOracleJson).reasoning = "" ∧
    (∀ j : OracleJson,
      (j.confidence_level = none ∨ j.confidence_level = some "") →
        (successRecord j).confidence_level = "medium") ∧
    (∀ j : OracleJson, j.strengths = none → (successRecord j).strengths
      = "[]") ∧
    (∀ j : OracleJson, j.weaknesses = none → (successRecord j).weaknesses
      = "[]") ∧
    (∀ j : OracleJson, (j.reasoning = none ∨ j.reasoning = some "") →
      (successRecord j).reasoning = "") ∧
    (∀ e, successRecord emptyOracleJson ≠ fallbackRecord e) :=
  success_path_defaults "" "" "" none _ rfl (Or.inl rfl)

/-! ## Lemmas: the descending stable sort of the ranking routes -/

/-- The comparator key coincides with the overall score (`x || 0` is the
identity on scores, and unsorted applicants carry key 0). -/
lemma sortKey_eq_overallOf (a : Applicant) : sortKey a = overallOf a := by
  rcases h : a.screening_result with _ | r
  · simp [sortKey, overallOf, jsNumOr, h]
  · simp only [sortKey, overallOf, jsNumOr, h, Option.map_some']
    split <;> simp_all

/-- Membership in an insertion step. -/
lemma mem_insertByScore {x z : Applicant} {l : List Applicant} :
    z ∈ insertByScore x l ↔ z = x ∨ z ∈ l := by
  induction l with
  | nil => simp [insertByScore]
  | cons y ys ih =>
    by_cases h : sortKey y - sortKey x < 0 <;>
      simp [insertByScore, h, ih] <;> tauto

/-- Insertion preserves descending sortedness. -/
lemma pairwise_insertByScore {x : Applicant} {l : List Applicant}
    (h : l.Pairwise (fun a b => sortKey b ≤ sortKey a)) :
    (insertByScore x l).Pairwise (fun a b => sortKey b ≤ sortKey a) := by
  induction l with
  | nil => simp [insertByScore]
  | cons y ys ih =>
    rcases List.pairwise_cons.mp h with ⟨hy, hys⟩
    by_cases hc : sortKey y - sortKey x < 0
    · rw [insertByScore, if_pos hc]
      refine List.pairwise_cons.mpr ⟨?_, h⟩
      intro z hz
      rcases List.mem_cons.mp hz with rfl | hz
      · nlinarith [hc]
      · have := hy z hz
        nlinarith [hc]
    · rw [insertByScore, if_neg hc]
      refine List.pairwise_cons.mpr ⟨?_, ih hys⟩
      intro z hz
      rcases mem_insertByScore.mp hz with rfl | hz
      · nlinarith [hc]
      · exact hy z hz

/-- Insertion grows the length by one. -/
lemma length_insertByScore (x : Applicant) (l : List Applicant) :
    (insertByScore x l).length = l.length + 1 := by
  induction l with
  | nil => rfl
  | cons y ys ih =>
    by_cases h : sortKey y - sortKey x < 0 <;>
      simp [insertByScore, h, ih]

/-- The sorted output of the fold is descending. -/
lemma pairwise_sortAux (l : List Applicant) :
    ∀ acc : List Applicant,
      acc.Pairwise (fun a b => sortKey b ≤ sortKey a) →
      (l.foldl (fun acc x => insertByScore x acc) acc).Pairwise
        (fun a b => sortKey b ≤ sortKey a) := by
  induction l with
  | nil => intro acc h; exact h
  | cons x xs ih =>
    intro acc h
    exact ih _ (pairwise_insertByScore h)

/-- The fold preserves total length. -/
lemma length_sortAux (l : List Applicant) :
    ∀ acc : List Applicant,
      (l.foldl (fun acc x => insertByScore x acc) acc).length =
        acc.length + l.length := by
  induction l with
  | nil => intro acc; simp
  | cons x xs ih =>
    intro acc
    rw [List.foldl_cons, ih, length_insertByScore]
    simp only [List.length_cons]
    omega

/-- `sortByScoreDesc` is descending in the comparator key. -/
lemma pairwise_sortByScoreDesc (l : List Applicant) :
    (sortByScoreDesc l).Pairwise (fun a b => sortKey b ≤ sortKey a) :=
  pairwise_sortAux l [] (by simp)

/-- `sortByScoreDesc` preserves length. -/
lemma length_sortByScoreDesc (l : List Applicant) :
    (sortByScoreDesc l).length = l.length := by
  rw [sortByScoreDesc, length_sortAux]
  simp

/-! ## Top-candidates route: claim C1 -/

/-- Core facts about the nonempty branch of the top-candidates route. -/
lemma getTopCandidates_core (p : ℚ) (s : Store)
    (h : ¬ (scoredOf s).length = 0) :
    (getTopCandidates p s).total_count = (scoredOf s).length ∧
    (getTopCandidates p s).top_percentage = p ∧
    (getTopCandidates p s).candidates.length =
      min (max 1 ⌊((scoredOf s).length : ℚ) * (p / 100)⌋).toNat
        (scoredOf s).length ∧
    (getTopCandidates p s).candidates.Pairwise
      (fun a b => sortKey b ≤ sortKey a) := by
  refine ⟨by simp [getTopCandidates, h], by simp [getTopCandidates, h],
    ?_, ?_⟩
  · simp only [getTopCandidates, h, if_false]
    rw [List.length_take, length_sortByScoreDesc]
  · simp only [getTopCandidates, h, if_false]
    exact (pairwise_sortByScoreDesc (scoredOf s)).sublist
      (List.take_sublist _ _)

/-- Claim C1, amended: with `N ≥ 1` scored applicants the top-candidates
route echoes the fraction, reports `total_count = N`, returns the
candidates ordered by descending overall score, and returns exactly
`min(N, max(1, floor(N × fraction / 100)))` of them — the `min N` cap
(from the slice) is missing from the claim as stated. -/
theorem top_candidates_spec (p : ℚ) (s : Store)
    (hN : 1 ≤ (scoredOf s).length) :
    (getTopCandidates p s).total_count = (scoredOf s).length ∧
    (getTopCandidates p s).top_percentage = p ∧
    (getTopCandidates p s).candidates.length =
      min (max 1 ⌊((scoredOf s).length : ℚ) * (p / 100)⌋).toNat
        (scoredOf s).length ∧
    (getTopCandidates p s).candidates.Pairwise
      (fun a b => overallOf b ≤ overallOf a) := by
  obtain ⟨h1, h2, h3, h4⟩ := getTopCandidates_core p s (by omega)
  refine ⟨h1, h2, h3, h4.imp ?_⟩
  intro a b hab
  rw [← sortKey_eq_overallOf, ← sortKey_eq_overallOf]
  exact hab

/-- A concrete screened applicant (score 90) for witnesses. -/
def sampleScreening : ScreeningResult :=
  { id := 1
    applicant_id := 1
    overall_score := 90
    resume_score := none
    cover_letter_score := none
    transcript_score := none
    strengths := "[]"
    weaknesses := "[]"
    reasoning := ""
    recommended_for_interview := true
    confidence_level := "high"
    rank := none
    percentile := none
    screened_at := "t"
    ai_model_used := "gpt-4o" }

/-- A store holding one screened applicant. -/
def c1app : Applicant :=
  { id := 1
    name := none
    email := none
    phone := none
    source := "handshake"
    position_applied := none
    created_at := "t"
    updated_at := "t"
    documents := []
    screening_result := some sampleScreening }

/-- The singleton store for the C1 scenarios. -/
def c1store : Store := ⟨[(1, c1app)], 2⟩

/-- Witness for the amended C1 at fraction 15 on a singleton store. -/
theorem top_candidates_spec_witness :
    (getTopCandidates 15 c1store).total_count = (scoredOf c1store).length ∧
    (getTopCandidates 15 c1store).top_percentage = 15 ∧
    (getTopCandidates 15 c1store).candidates.length =
      min (max 1 ⌊((scoredOf c1store).length : ℚ) * (15 / 100)⌋).toNat
        (scoredOf c1store).length ∧
    (getTopCandidates 15 c1store).candidates.Pairwise
      (fun a b => overallOf b ≤ overallOf a) :=
  top_candidates_spec 15 c1store (by decide)

/-- Counterexample to claim C1 as stated: with one scored applicant and
fraction 200 the route returns 1 candidate while the claim's
`max(1, floor(N × fraction / 100))` demands 2 — the slice caps at `N`. -/
theorem top_candidates_counterexample :
    (scoredOf c1store).length = 1 ∧
    (getTopCandidates 200 c1store).candidates.length = 1 ∧
    (max 1 ⌊((scoredOf c1store).length : ℚ) * (200 / 100)⌋).toNat = 2 := by
  have h1 : (scoredOf c1store).length = 1 := rfl
  have hfloor : (max 1 ⌊((1 : ℚ)) * (200 / 100)⌋) = 2 := by norm_num
  refine ⟨h1, ?_, ?_⟩
  · have hc := (getTopCandidates_core 200 c1store (by decide)).2.2.1
    rw [hc, h1]
    norm_num
  · rw [h1]
    norm_num
    decide

/-! ## Summary route: claim C3 -/

/-- The reported average in the screened-nonempty branch. -/
lemma getSummary_average (s : Store)
    (h : 0 < (((getAllApplicants s).filter
      (fun a => a.screening_result.isSome)).map overallOf).length) :
    (getSummary s).average_score =
      (jsRound ((((getAllApplicants s).filter
          (fun a => a.screening_result.isSome)).map overallOf).sum /
        (((((getAllApplicants s).filter
          (fun a => a.screening_result.isSome)).map overallOf).length : ℚ))
        * 10) : ℚ) / 10 := by
  show (jsRound ((if 0 < (((getAllApplicants s).filter
        (fun a => a.screening_result.isSome)).map overallOf).length then
      (((getAllApplicants s).filter
        (fun a => a.screening_result.isSome)).map overallOf).sum /
        (((((getAllApplicants s).filter
          (fun a => a.screening_result.isSome)).map overallOf).length : ℚ))
      else 0) * 10) : ℚ) / 10 = _
  rw [if_pos h]

/-- Claim C3, amended: the summary always satisfies
`screened_count + pending_count = total_applicants`; and when at least
one applicant is screened *and every screened overall score lies in
[0, 100]* the reported rounded average lies in [0, 100].  (Nothing in the
code constrains stored scores, so the range hypothesis is necessary.) -/
theorem summary_consistency (s : Store) :
    (getSummary s).screened_count + (getSummary s).pending_count =
      (getSummary s).total_applicants ∧
    (0 < (getSummary s).screened_count →
      (∀ a ∈ getAllApplicants s, ∀ r, a.screening_result = some r →
        0 ≤ r.overall_score ∧ r.overall_score ≤ 100) →
      0 ≤ (getSummary s).average_score ∧
        (getSummary s).average_score ≤ 100) := by
  constructor
  · have hle := List.length_filter_le
      (fun a => a.screening_result.isSome) (getAllApplicants s)
    show ((getAllApplicants s).filter
        (fun a => a.screening_result.isSome)).length +
      ((getAllApplicants s).length -
        ((getAllApplicants s).filter
          (fun a => a.screening_result.isSome)).length) =
      (getAllApplicants s).length
    omega
  · intro hpos hrange
    have hpos' : 0 < ((getAllApplicants s).filter
        (fun a => a.screening_result.isSome)).length := hpos
    have hlen : (((getAllApplicants s).filter
        (fun a => a.screening_result.isSome)).map overallOf).length =
      ((getAllApplicants s).filter
        (fun a => a.screening_result.isSome)).length := List.length_map _ _
    have hbounds : ∀ x ∈ ((getAllApplicants s).filter
        (fun a => a.screening_result.isSome)).map overallOf,
        0 ≤ x ∧ x ≤ 100 := by
      intro x hx
      obtain ⟨a, ha, rfl⟩ := List.mem_map.mp hx
      have ha' := List.mem_filter.mp ha
      obtain ⟨r, hr⟩ := Option.isSome_iff_exists.mp (by simpa using ha'.2)
      have hb := hrange a ha'.1 r hr
      simpa [overallOf, hr] using hb
    have hslen : 0 < (((getAllApplicants s).filter
        (fun a => a.screening_result.isSome)).map overallOf).length := by
      omega
    have havg := getSummary_average s hslen
    set scores := ((getAllApplicants s).filter
      (fun a => a.screening_result.isSome)).map overallOf with hscores
    have hq : (0 : ℚ) < (scores.length : ℚ) := by exact_mod_cast hslen
    have hsum0 : 0 ≤ scores.sum :=
      List.sum_nonneg (fun x hx => (hbounds x hx).1)
    have hsum100 : scores.sum ≤ (scores.length : ℚ) * 100 := by
      calc scores.sum ≤ scores.length • (100 : ℚ) :=
            List.sum_le_card_nsmul _ _ (fun x hx => (hbounds x hx).2)
        _ = (scores.length : ℚ) * 100 := by rw [nsmul_eq_mul]
    have havg0 : 0 ≤ scores.sum / (scores.length : ℚ) :=
      div_nonneg hsum0 hq.le
    have havg100 : scores.sum / (scores.length : ℚ) ≤ 100 := by
      rw [div_le_iff hq]
      linarith
    have h0 : (0 : ℤ) ≤ jsRound (scores.sum / (scores.length : ℚ) * 10) := by
      rw [jsRound]
      exact Int.le_floor.mpr (by push_cast; linarith)
    have h1000 : jsRound (scores.sum / (scores.length : ℚ) * 10) ≤ 1000 := by
      rw [jsRound]
      have hmono : ⌊scores.sum / (scores.length : ℚ) * 10 + 1 / 2⌋ ≤
          ⌊(1000 : ℚ) + 1 / 2⌋ := Int.floor_le_floor (by linarith)
      have h2 : (⌊(1000 : ℚ) + 1 / 2⌋ : ℤ) = 1000 := by norm_num
      omega
    rw [havg]
    constructor
    · apply div_nonneg _ (by norm_num)
      exact_mod_cast h0
    · rw [div_le_iff (by norm_num : (0 : ℚ) < 10)]
      calc (jsRound (scores.sum / (scores.length : ℚ) * 10) : ℚ) ≤ 1000 := by
            exact_mod_cast h1000
        _ = 100 * 10 := by norm_num

/-- Witness for the amended C3 on the singleton store with score 90. -/
theorem summary_consistency_witness :
    (getSummary c1store).screened_count + (getSummary c1store).pending_count =
      (getSummary c1store).total_applicants ∧
    (0 ≤ (getSummary c1store).average_score ∧
      (getSummary c1store).average_score ≤ 100) := by
  refine ⟨(summary_consistency c1store).1,
    (summary_consistency c1store).2 (by decide) ?_⟩
  intro a ha r hr
  simp only [getAllApplicants, c1store, List.map_cons, List.map_nil,
    List.mem_cons, List.not_mem_nil, or_false] at ha
  subst ha
  simp only [c1app] at hr
  obtain rfl : sampleScreening = r := by
    simpa using hr
  constructor <;> norm_num [sampleScreening]

/-- A screened applicant carrying an out-of-range overall score of 200
(reachable: the oracle's parsed `overall_score` is stored unclamped). -/
def badScreening : ScreeningResult :=
  { id := 1
    applicant_id := 1
    overall_score := 200
    resume_score := none
    cover_letter_score := none
    transcript_score := none
    strengths := "[]"
    weaknesses := "[]"
    reasoning := ""
    recommended_for_interview := false
    confidence_level := "medium"
    rank := none
    percentile := none
    screened_at := "t"
    ai_model_used := "gpt-4o" }

/-- The applicant holding `badScreening`. -/
def c3app : Applicant :=
  { id := 1
    name := none
    email := none
    phone := none
    source := "handshake"
    position_applied := none
    created_at := "t"
    updated_at := "t"
    documents := []
    screening_result := some badScreening }

/-- The store for the C3 counterexample. -/
def c3store : Store := ⟨[(1, c3app)], 2⟩

/-- Counterexample to claim C3 as stated: a store state with one
screened applicant whose stored score is 200 reports an average of 200,
outside [0, 100] — the claim's bound needs the scores in range. -/
theorem summary_average_counterexample :
    0 < (getSummary c3store).screened_count ∧
    ¬ ((getSummary c3store).average_score ≤ 100) := by
  have hscores : ((getAllApplicants c3store).filter
      (fun a => a.screening_result.isSome)).map overallOf = [200] := rfl
  have h1 : 0 < (((getAllApplicants c3store).filter
      (fun a => a.screening_result.isSome)).map overallOf).length := by
    rw [hscores]; decide
  have havg := getSummary_average c3store h1
  rw [hscores] at havg
  have hval : (getSummary c3store).average_score = 200 := by
    rw [havg]
    have hr : jsRound (([(200 : ℚ)].sum / (([(200 : ℚ)].length : ℕ) : ℚ))
        * 10) = 2000 := by
      norm_num [jsRound]
    rw [hr]
    norm_num
  refine ⟨by decide, ?_⟩
  rw [hval]
  norm_num

/-! ## Upload-handler claims (C2, C7) -/

/-- A document step on a valid (or absent) file succeeds. -/
lemma processDoc_valid_ok (file : Option FileData) (dtype : DocType)
    (extract : List Nat → String) (now : String) (docs : List Document)
    (count : Nat) (h : file.all (fun f => validatePDF f.bytes) = true) :
    ∃ d n t, processDoc file dtype extract now docs count =
      Except.ok (d, n, t) := by
  cases file with
  | none => exact ⟨docs, count, "", rfl⟩
  | some f =>
    have hv : validatePDF f.bytes = true := by simpa using h
    refine ⟨docs ++ [Document.mk (count + 1) dtype ("/uploads/" ++ f.name)
      f.name (some (extract f.bytes)) (some f.bytes.length) now],
      count + 1, extract f.bytes, ?_⟩
    simp [processDoc, hv]

/-- A document step succeeds only on a valid (or absent) file. -/
lemma processDoc_ok_valid {file : Option FileData} {dtype : DocType}
    {extract : List Nat → String} {now : String} {docs : List Document}
    {count : Nat} {res : List Document × Nat × String}
    (h : processDoc file dtype extract now docs count = Except.ok res) :
    file.all (fun f => validatePDF f.bytes) = true := by
  cases file with
  | none => rfl
  | some f =>
    by_cases hv : validatePDF f.bytes
    · simpa using hv
    · simp [processDoc, hv] at h

/-- Creating an applicant and then attaching its screening result, on a
well-formed store, appends exactly one fully populated entry. -/
lemma addThenAttach (s : Store) (inp : ApplicantInput)
    (sr : ScreeningResult) (hwf : StoreWF s) :
    (updateApplicant (addApplicant s inp).2 s.nextId
        (screeningUpdate sr)).2 =
      ⟨s.applicants ++ [(s.nextId,
        { applicantOf inp s.nextId with screening_result := some sr })],
       s.nextId + 1⟩ := by
  have hnot := nextId_notMem s hwf
  have hadd : (addApplicant s inp).2 =
      ⟨s.applicants ++ [(s.nextId, applicantOf inp s.nextId)],
        s.nextId + 1⟩ := by
    simp [addApplicant, mapSet_notMem _ _ _ hnot]
  rw [hadd]
  have hl : lookupId
      (s.applicants ++ [(s.nextId, applicantOf inp s.nextId)]) s.nextId =
      some (applicantOf inp s.nextId) := lookup_append_right _ _ _ hnot
  simp only [updateApplicant, hl]
  rw [mapSet_append_right _ _ _ _ hnot]
  simp [mergeApplicant, screeningUpdate, applicantOf]

/-- Under passing validation the handler reaches the success branch:
it responds 200 with the fresh identifier and stores the screened
applicant via add-then-update. -/
lemma uploadPOST_success (req : UploadRequest) (extract : List Nat → String)
    (callOutcome : Except String (Option String))
    (parse : String → Except String OracleJson) (now : String) (s : Store)
    (hsome : req.resume.isSome = true ∨ req.cover_letter.isSome = true ∨
      req.transcript.isSome = true)
    (hr : req.resume.all (fun f => validatePDF f.bytes) = true)
    (hc : req.cover_letter.all (fun f => validatePDF f.bytes) = true)
    (ht : req.transcript.all (fun f => validatePDF f.bytes) = true) :
    ∃ docs n rt ct tt,
      uploadPOST req extract callOutcome parse now s =
        (PostResponse.ok "Successfully uploaded documents for applicant"
          s.nextId n true,
         (updateApplicant (addApplicant s (uploadInput req docs now)).2
           s.nextId
           (screeningUpdate (toScreeningResult
             (screenApplicant rt ct tt callOutcome parse)
             s.nextId now))).2) := by
  have h0 : (req.resume.isNone && req.cover_letter.isNone &&
      req.transcript.isNone) = false := by
    rcases h1 : req.resume with _ | f1 <;>
      rcases h2 : req.cover_letter with _ | f2 <;>
      rcases h3 : req.transcript with _ | f3 <;> simp_all
  obtain ⟨d1, n1, t1, e1⟩ :=
    processDoc_valid_ok req.resume .resume extract now [] 0 hr
  obtain ⟨d2, n2, t2, e2⟩ :=
    processDoc_valid_ok req.cover_letter .cover_letter extract now d1 n1 hc
  obtain ⟨d3, n3, t3, e3⟩ :=
    processDoc_valid_ok req.transcript .transcript extract now d2 n2 ht
  refine ⟨d3, n3, t1, t2, t3, ?_⟩
  simp only [uploadPOST, h0, Bool.false_eq_true, if_false, e1, e2, e3]
  rfl

/-- Claim C2: on any oracle-call or parse failure the screening function
yields the deterministic fallback (overall 30, no component scores, not
recommended, low confidence), the upload still responds with success, the
applicant is retrievable carrying exactly that fallback ScreeningResult,
and the summary counts it as screened. -/
theorem upload_oracle_failure (req : UploadRequest)
    (extract : List Nat → String)
    (callOutcome : Except String (Option String))
    (parse : String → Except String OracleJson) (e : String)
    (now : String) (s : Store) (hwf : StoreWF s)
    (hfail : callOutcome = Except.error e ∨
      ∃ content, callOutcome = Except.ok content ∧
        parse (jsStrOr content jsonEmptyObjectText) = Except.error e)
    (hsome : req.resume.isSome = true ∨ req.cover_letter.isSome = true ∨
      req.transcript.isSome = true)
    (hr : req.resume.all (fun f => validatePDF f.bytes) = true)
    (hc : req.cover_letter.all (fun f => validatePDF f.bytes) = true)
    (ht : req.transcript.all (fun f => validatePDF f.bytes) = true) :
    (∃ n, (uploadPOST req extract callOutcome parse now s).1 =
      PostResponse.ok "Successfully uploaded documents for applicant"
        s.nextId n true) ∧
    (∃ a, getApplicant (uploadPOST req extract callOutcome parse now s).2
        s.nextId = some a ∧
      a.screening_result =
        some (toScreeningResult (fallbackRecord e) s.nextId now)) ∧
    (toScreeningResult (fallbackRecord e) s.nextId now).overall_score = 30 ∧
    (toScreeningResult (fallbackRecord e) s.nextId now).resume_score
      = none ∧
    (toScreeningResult (fallbackRecord e) s.nextId now).cover_letter_score
      = none ∧
    (toScreeningResult (fallbackRecord e) s.nextId now).transcript_score
      = none ∧
    (toScreeningResult (fallbackRecord e) s.nextId
      now).recommended_for_interview = false ∧
    (toScreeningResult (fallbackRecord e) s.nextId now).confidence_level
      = "low" ∧
    (getSummary
        (uploadPOST req extract callOutcome parse now s).2).screened_count =
      (getSummary s).screened_count + 1 := by
  have hscreen : ∀ rt ct tt,
      screenApplicant rt ct tt callOutcome parse = fallbackRecord e := by
    intro rt ct tt
    rcases hfail with rfl | ⟨content, rfl, hp⟩
    · rfl
    · simp [screenApplicant, hp]
  obtain ⟨docs, n, rt, ct, tt, hpost⟩ :=
    uploadPOST_success req extract callOutcome parse now s hsome hr hc ht
  rw [hscreen] at hpost
  rw [addThenAttach s (uploadInput req docs now)
    (toScreeningResult (fallbackRecord e) s.nextId now) hwf] at hpost
  have hnot := nextId_notMem s hwf
  refine ⟨⟨n, by rw [hpost]⟩,
    ⟨{ applicantOf (uploadInput req docs now) s.nextId with
        screening_result :=
          some (toScreeningResult (fallbackRecord e) s.nextId now) },
      ?_, rfl⟩, rfl, rfl, rfl, rfl, rfl, rfl, ?_⟩
  · rw [hpost]
    exact lookup_append_right _ _ _ hnot
  · rw [hpost]
    show ((getAllApplicants _).filter
        (fun a => a.screening_result.isSome)).length = _
    simp only [getAllApplicants, List.map_append, List.map_cons,
      List.map_nil, List.filter_append, List.length_append]
    rfl

/-- A concrete upload request with a single valid resume PDF. -/
def c2req : UploadRequest :=
  { name := none
    email := none
    phone := none
    position_applied := none
    source := none
    resume := some ⟨"r.pdf", [37, 80, 68, 70, 45]⟩
    cover_letter := none
    transcript := none }

/-- Witness for C2 on the empty store with a failing oracle call. -/
theorem upload_oracle_failure_witness :
    (∃ n, (uploadPOST c2req (fun _ => "") (Except.error "boom")
        (fun _ => Except.ok emptyOracleJson) "t0" emptyStore).1 =
      PostResponse.ok "Successfully uploaded documents for applicant"
        emptyStore.nextId n true) ∧
    (∃ a, getApplicant (uploadPOST c2req (fun _ => "")
          (Except.error "boom") (fun _ => Except.ok emptyOracleJson) "t0"
          emptyStore).2 emptyStore.nextId = some a ∧
      a.screening_result = some (toScreeningResult (fallbackRecord "boom")
        emptyStore.nextId "t0")) ∧
    (toScreeningResult (fallbackRecord "boom") emptyStore.nextId
      "t0").overall_score = 30 ∧
    (toScreeningResult (fallbackRecord "boom") emptyStore.nextId
      "t0").resume_score = none ∧
    (toScreeningResult (fallbackRecord "boom") emptyStore.nextId
      "t0").cover_letter_score = none ∧
    (toScreeningResult (fallbackRecord "boom") emptyStore.nextId
      "t0").transcript_score = none ∧
    (toScreeningResult (fallbackRecord "boom") emptyStore.nextId
      "t0").recommended_for_interview = false ∧
    (toScreeningResult (fallbackRecord "boom") emptyStore.nextId
      "t0").confidence_level = "low" ∧
    (getSummary (uploadPOST c2req (fun _ => "") (Except.error "boom")
        (fun _ => Except.ok emptyOracleJson) "t0"
        emptyStore).2).screened_count =
      (getSummary emptyStore).screened_count + 1 :=
  upload_oracle_failure c2req (fun _ => "") (Except.error "boom")
    (fun _ => Except.ok emptyOracleJson) "boom" "t0" emptyStore
    ⟨fun p hp => by simp [emptyStore] at hp, by simp [emptyStore]⟩
    (Or.inl rfl) (Or.inl rfl) (by decide) rfl rfl

/-- Claim C7: an upload whose documents fail validation — nothing
provided, or any provided file without the `%PDF-` header — is rejected
with a 400 client error and the store is left exactly as it was. -/
theorem upload_validation_failure (req : UploadRequest)
    (extract : List Nat → String)
    (callOutcome : Except String (Option String))
    (parse : String → Except String OracleJson) (now : String) (s : Store)
    (h : (req.resume = none ∧ req.cover_letter = none ∧
        req.transcript = none) ∨
      (∃ f, req.resume = some f ∧ validatePDF f.bytes = false) ∨
      (∃ f, req.cover_letter = some f ∧ validatePDF f.bytes = false) ∨
      (∃ f, req.transcript = some f ∧ validatePDF f.bytes = false)) :
    (uploadPOST req extract callOutcome parse now s).2 = s ∧
    ∃ m, (uploadPOST req extract callOutcome parse now s).1 =
      PostResponse.err m 400 := by
  by_cases h0 : (req.resume.isNone && req.cover_letter.isNone &&
      req.transcript.isNone) = true
  · exact ⟨by simp [uploadPOST, h0],
      ⟨"At least one document must be provided",
        by simp [uploadPOST, h0]⟩⟩
  · have h0' : (req.resume.isNone && req.cover_letter.isNone &&
        req.transcript.isNone) = false := by
      revert h0
      cases req.resume.isNone && req.cover_letter.isNone &&
        req.transcript.isNone <;> simp
    rcases e1 : processDoc req.resume .resume extract now [] 0 with
      m1 | ⟨d1, n1, t1⟩
    · exact ⟨by simp [uploadPOST, h0', e1],
        ⟨m1, by simp [uploadPOST, h0', e1]⟩⟩
    · rcases e2 : processDoc req.cover_letter .cover_letter extract now d1
        n1 with m2 | ⟨d2, n2, t2⟩
      · exact ⟨by simp [uploadPOST, h0', e1, e2],
          ⟨m2, by simp [uploadPOST, h0', e1, e2]⟩⟩
      · rcases e3 : processDoc req.transcript .transcript extract now d2
          n2 with m3 | ⟨d3, n3, t3⟩
        · exact ⟨by simp [uploadPOST, h0', e1, e2, e3],
            ⟨m3, by simp [uploadPOST, h0', e1, e2, e3]⟩⟩
        · exfalso
          have v1 := processDoc_ok_valid e1
          have v2 := processDoc_ok_valid e2
          have v3 := processDoc_ok_valid e3
          rcases h with ⟨ha, hb, hcn⟩ | ⟨f, hf, hv⟩ | ⟨f, hf, hv⟩ |
            ⟨f, hf, hv⟩
          · rw [ha, hb, hcn] at h0
            exact h0 rfl
          · rw [hf] at v1
            simp at v1
            rw [v1] at hv
            cases hv
          · rw [hf] at v2
            simp at v2
            rw [v2] at hv
            cases hv
          · rw [hf] at v3
            simp at v3
            rw [v3] at hv
            cases hv

/-- The empty upload request. -/
def c7req : UploadRequest :=
  { name := none
    email := none
    phone := none
    position_applied := none
    source := none
    resume := none
    cover_letter := none
    transcript := none }

/-- Witness for C7: the document-free upload is rejected, store intact. -/
theorem upload_validation_failure_witness :
    (uploadPOST c7req (fun _ => "") (Except.error "x")
      (fun _ => Except.ok emptyOracleJson) "t" emptyStore).2 = emptyStore ∧
    ∃ m, (uploadPOST c7req (fun _ => "") (Except.error "x")
      (fun _ => Except.ok emptyOracleJson) "t" emptyStore).1 =
        PostResponse.err m 400 :=
  upload_validation_failure c7req (fun _ => "") (Except.error "x")
    (fun _ => Except.ok emptyOracleJson) "t" emptyStore
    (Or.inl ⟨rfl, rfl, rfl⟩)

/-- Witness for C5 on a concrete six-byte buffer with a valid header. -/
theorem validatePDF_spec_witness :
    (validatePDF [37, 80, 68, 70, 45, 99] = true ↔
      [37, 80, 68, 70, 45, 99].take 5 = pdfHeaderCodes) ∧
    ([37, 80, 68, 70, 45, 99].length < 5 →
      validatePDF [37, 80, 68, 70, 45, 99] = false) ∧
    validatePDF [37, 80, 68, 70, 45, 99] =
      validatePDF ([37, 80, 68, 70, 45, 99].take 5) :=
  validatePDF_spec [37, 80, 68, 70, 45, 99]
